import Mathlib

/-!
Verification of the Elite Fitness backend authentication and authorization
subsystem.  The definitions below are a shallow embedding of the JavaScript
source: `src/utils/jwt.js` (credential codec and revocation registry),
`src/config/passport.js` (login strategies), `src/models/User.js` and the
`Client` model (lockout tracker), `src/utils/oauth.js` (external identity
linker), `src/middleware/authorize.js` (permission resolver), and
`src/controllers/authController.js` (login responses).

External collaborators are parameters: the `jsonwebtoken` library is modelled
by the `Token` type (a token is either a well-signed payload or garbage),
`bcrypt.compare` by an abstract `compare` function, fresh UUIDs by explicit
arguments, and the Sequelize stores by lists of records.  Time stamps are
natural numbers (seconds for token clocks, milliseconds for the lockout
clock, matching the units each piece of source code uses).
-/

namespace EliteFitness

/-- JavaScript `x || d` on an optional string: `null`/`undefined` and the
empty string are falsy and give the default. -/
def jsOrString (v : Option String) (d : String) : String :=
  match v with
  | none => d
  | some s => if s = "" then d else s

/-- JavaScript `x || null` on an optional string. -/
def jsOrNull (v : Option String) : Option String :=
  match v with
  | none => none
  | some s => if s = "" then none else some s

/-- JavaScript `s.toLowerCase()` (the same function as `String.toLower`,
written structurally so that it evaluates inside proofs). -/
def jsToLowerCase (s : String) : String :=
  String.mk (s.data.map Char.toLower)

/-! ## Credential codec (`src/utils/jwt.js`) -/

/-- `JWT_CONFIG` from `src/utils/jwt.js` (environment defaults).  Expiries
are in seconds: `'24h'` for access tokens and `'7d'` for refresh tokens. -/
structure JwtConfig where
  secret : String
  accessTokenExpiry : Nat
  refreshTokenExpiry : Nat
  issuer : String
  audience : List String
  deriving DecidableEq

def JWT_CONFIG : JwtConfig :=
  { secret := "elite_fitness_super_secret_key_2024"
    accessTokenExpiry := 24 * 60 * 60
    refreshTokenExpiry := 7 * 24 * 60 * 60
    issuer := "elite-fitness-club"
    audience := ["web", "mobile"] }

/-- A decoded JWT payload.  Optional fields model JavaScript objects whose
keys may be absent: access tokens carry `id`/`email`/`type`/`role`/
`permissions`, refresh tokens carry `userId`/`userType`/`tokenType`.
`permissions` is the override map (permission name to explicit allow/deny). -/
structure TokenPayload where
  id : Option String := none
  email : Option String := none
  type : Option String := none
  role : Option String := none
  permissions : Option (List (String × Bool)) := none
  userId : Option String := none
  userType : Option String := none
  tokenType : Option String := none
  iat : Nat := 0
  exp : Option Nat := none
  sub : Option String := none
  jti : Option String := none
  iss : Option String := none
  aud : List String := []
  deriving DecidableEq

/-- A credential string, modelling the `jsonwebtoken` library: a token is
either the well-formed signature of a payload under a secret, or an
undecodable string. -/
inductive Token where
  | signed (payload : TokenPayload) (secret : String)
  | malformed (raw : String)
  deriving DecidableEq

/-- Input of `generateAccessToken`: the caller-supplied `payload` object. -/
structure AccessPayloadInput where
  id : String
  email : String
  type : Option String := none
  role : Option String := none
  permissions : Option (List (String × Bool)) := none
  deriving DecidableEq

/-- `generateAccessToken` from `src/utils/jwt.js` (default options): builds
the token payload with the JS defaults `payload.type || 'client'`,
`payload.role || null`, `payload.permissions || {}` and signs it with the
configured secret, issuer, audience and a 24h expiry.  `now` is the clock in
seconds and `jti` the fresh `crypto.randomUUID()`. -/
def generateAccessToken (p : AccessPayloadInput) (now : Nat) (jti : String) : Token :=
  Token.signed
    { id := some p.id
      email := some p.email
      type := some (jsOrString p.type "client")
      role := jsOrNull p.role
      permissions := some (p.permissions.getD [])
      iat := now
      exp := some (now + JWT_CONFIG.accessTokenExpiry)
      sub := some p.id
      jti := some jti
      iss := some JWT_CONFIG.issuer
      aud := JWT_CONFIG.audience }
    JWT_CONFIG.secret

/-- `generateRefreshToken` from `src/utils/jwt.js`: the payload carries
`userId`, `userType`, `tokenType: 'refresh'`; the signing options set issuer,
subject, jwtid and a 7-day expiry but no audience. -/
def generateRefreshToken (userId : String) (userType : String) (now : Nat)
    (jti : String) : Token :=
  Token.signed
    { userId := some userId
      userType := some userType
      tokenType := some "refresh"
      iat := now
      exp := some (now + JWT_CONFIG.refreshTokenExpiry)
      sub := some userId
      jti := some jti
      iss := some JWT_CONFIG.issuer
      aud := [] }
    JWT_CONFIG.secret

/-- Verification outcome tags, following the error taxonomy of
`verifyToken`: revoked, expired, or invalid (malformed / bad signature /
audience / issuer). -/
inductive VerifyError where
  | revoked
  | expired
  | invalid
  deriving DecidableEq

/-- `jsonwebtoken`'s audience check: the token's `aud` must intersect the
expected audience list. -/
def audienceMatches (tokenAud expected : List String) : Bool :=
  tokenAud.any (fun a => expected.contains a)

/-- The expiry test `exp < now` on a payload that may lack `exp`. -/
def jsExpired (exp : Option Nat) (now : Nat) : Bool :=
  match exp with
  | some e => decide (e < now)
  | none => false

/-- `jwt.verify(token, secret, {issuer, audience})` as used both by
`verifyToken` and by the `passport-jwt` strategy configuration (same secret,
issuer, audience, `ignoreExpiration: false`).  Note that it does NOT consult
the revoked-token set. -/
def jwtLibVerify (now : Nat) (t : Token) : Except VerifyError TokenPayload :=
  match t with
  | .malformed _ => .error .invalid
  | .signed p sec =>
    if sec ≠ JWT_CONFIG.secret then .error .invalid
    else if jsExpired p.exp now then .error .expired
    else if ¬ audienceMatches p.aud JWT_CONFIG.audience then .error .invalid
    else if p.iss ≠ some JWT_CONFIG.issuer then .error .invalid
    else .ok p

/-- `revokedTokens.has(token)` from `src/utils/jwt.js`. -/
def isRevoked (revoked : List Token) (t : Token) : Bool :=
  decide (t ∈ revoked)

/-- `verifyToken` from `src/utils/jwt.js`: rejects blacklisted tokens first,
then runs `jwt.verify`, then re-checks expiry ("doble verificación"). -/
def verifyToken (revoked : List Token) (now : Nat) (t : Token) :
    Except VerifyError TokenPayload :=
  if t ∈ revoked then .error .revoked
  else
    match jwtLibVerify now t with
    | .error e => .error e
    | .ok decoded =>
      if jsExpired decoded.exp now then .error .expired
      else .ok decoded

/-- `revokeToken` from `src/utils/jwt.js`: `revokedTokens.add(token)`
(idempotent set insert). -/
def revokeToken (t : Token) (revoked : List Token) : List Token :=
  if t ∈ revoked then revoked else t :: revoked

/-- `decodeTokenWithoutVerification` (`jwt.decode`): recovers the payload of
any well-formed token without checking the signature; `null` on garbage. -/
def decodeTokenWithoutVerification (t : Token) : Option TokenPayload :=
  match t with
  | .signed p _ => some p
  | .malformed _ => none

/-- The object returned by `getTokenInfo`.  `expiresAt = none` models the
invalid `Date` produced when the payload has no `exp` (all of whose numeric
comparisons are false, as with `NaN`). -/
structure TokenInfo where
  userId : Option String
  email : Option String
  userType : Option String
  role : Option String
  issuedAt : Nat
  expiresAt : Option Nat
  jwtId : Option String
  deriving DecidableEq

/-- `getTokenInfo` from `src/utils/jwt.js`. -/
def getTokenInfo (t : Token) : Option TokenInfo :=
  match decodeTokenWithoutVerification t with
  | none => none
  | some p =>
    some { userId := p.id, email := p.email, userType := p.type, role := p.role,
           issuedAt := p.iat, expiresAt := p.exp, jwtId := p.jti }

/-- `isTokenExpiringSoon` from `src/utils/jwt.js`: `true` when the token
cannot be decoded; otherwise compares minutes-until-expiry with the
threshold (`NaN <= threshold` is false when `exp` is absent). -/
def isTokenExpiringSoon (t : Token) (now : Nat) (minutesThreshold : Nat) : Bool :=
  match getTokenInfo t with
  | none => true
  | some info =>
    match info.expiresAt with
    | some e => decide (e - now ≤ minutesThreshold * 60)
    | none => false

/-- The keep-predicate of `cleanupRevokedTokens`: an entry is deleted exactly
when it decodes and its `exp` has passed. -/
def cleanupKeeps (now : Nat) (t : Token) : Bool :=
  match getTokenInfo t with
  | some info =>
    match info.expiresAt with
    | some e => decide (¬ e < now)
    | none => true
  | none => true

/-- `cleanupRevokedTokens` from `src/utils/jwt.js`: removes from the
blacklist every token that decodes to an `exp` earlier than `now`. -/
def cleanupRevokedTokens (now : Nat) (revoked : List Token) : List Token :=
  revoked.filter (cleanupKeeps now)

/-! ## Principal stores -/

/-- The attributes of a stored account record that the refresh flow and the
JWT strategy read: both the `User` and the `Client` Sequelize models expose
them (`role`/`permissions` are simply absent, i.e. `none`, on clients). -/
structure Principal where
  id : String
  email : String
  isActive : Bool
  role : Option String := none
  permissions : Option (List (String × Bool)) := none
  deriving DecidableEq

/-- `Model.findByPk(pk)`; the key may be absent from the payload. -/
def findByPk (store : List Principal) (pk : Option String) : Option Principal :=
  match pk with
  | none => none
  | some k => store.find? (fun u => decide (u.id = k))

/-! ## Refresh flow (`refreshAccessToken` in `src/utils/jwt.js`) -/

/-- All failures of `refreshAccessToken` are collapsed by its `catch` into
one thrown error (`'Error renovando token de acceso'`). -/
inductive RefreshError where
  | failed
  deriving DecidableEq

/-- `refreshAccessToken` from `src/utils/jwt.js`: verifies the presented
token, requires `tokenType === 'refresh'`, re-fetches the principal from the
`User` or `Client` store according to `userType`, fails when it is missing
or inactive, and otherwise generates a single new access token.  The
revocation registry is returned unchanged, mirroring that the source never
touches `revokedTokens` here and never issues a new refresh token. -/
def refreshAccessToken (users clients : List Principal) (revoked : List Token)
    (now : Nat) (newJti : String) (t : Token) :
    Except RefreshError Token × List Token :=
  match verifyToken revoked now t with
  | .error _ => (.error .failed, revoked)
  | .ok decoded =>
    if decoded.tokenType ≠ some "refresh" then (.error .failed, revoked)
    else
      match (if decoded.userType = some "user" then findByPk users decoded.userId
             else findByPk clients decoded.userId) with
      | none => (.error .failed, revoked)
      | some u =>
        if ¬ u.isActive then (.error .failed, revoked)
        else
          (.ok (generateAccessToken
            { id := u.id, email := u.email, type := decoded.userType,
              role := u.role, permissions := u.permissions } now newJti), revoked)

/-! ## Passport JWT strategy (`src/config/passport.js`) -/

/-- The `'jwt'` strategy: `passport-jwt` verifies the bearer token with the
shared secret, issuer and audience (`jwtLibVerify`), then the callback
fetches the principal named by `payload.type`/`payload.id` and accepts it
when it exists and is active.  The `lastLogin` refresh performed on success
is omitted as it does not affect acceptance.  Note that the module-level
`revokedTokens` set is never consulted on this path. -/
def jwtStrategyAuth (users clients : List Principal) (now : Nat) (t : Token) :
    Option Principal :=
  match jwtLibVerify now t with
  | .error _ => none
  | .ok payload =>
    match (if payload.type = some "user" then findByPk users payload.id
           else if payload.type = some "client" then findByPk clients payload.id
           else none) with
    | none => none
    | some u => if u.isActive then some u else none

/-! ## Client model (`Client` Sequelize model) and lockout tracker -/

/-- The `Client` record fields used by the local strategy, the lockout
methods and the OAuth linker.  Times are in milliseconds (`Date.now()`). -/
structure Client where
  id : String
  email : String
  password : Option String := none
  googleId : Option String := none
  facebookId : Option String := none
  authProvider : String := "local"
  firstName : String := ""
  lastName : String := ""
  isActive : Bool := true
  isEmailVerified : Bool := false
  lastLogin : Option Nat := none
  loginAttempts : Nat := 0
  lockedUntil : Option Nat := none
  deriving DecidableEq

/-- `Client.prototype.isLocked`: `!!(lockedUntil && lockedUntil > Date.now())`. -/
def isLocked (c : Client) (now : Nat) : Bool :=
  match c.lockedUntil with
  | some l => decide (now < l)
  | none => false

/-- `Client.prototype.incrementLoginAttempts`: bumps the counter and, when
the new count reaches 5, sets `lockedUntil = now + 30min`; the counter
itself is kept (not reset) by the lock. -/
def incrementLoginAttempts (c : Client) (now : Nat) : Client :=
  let attempts := c.loginAttempts + 1
  if 5 ≤ attempts then
    { c with loginAttempts := attempts, lockedUntil := some (now + 30 * 60 * 1000) }
  else
    { c with loginAttempts := attempts }

/-- `Client.prototype.resetLoginAttempts`: clears the counter and the lock
and stamps `lastLogin`. -/
def resetLoginAttempts (c : Client) (now : Nat) : Client :=
  { c with loginAttempts := 0, lockedUntil := none, lastLogin := some now }

/-- `Client.prototype.validatePassword`: `false` for password-less (OAuth
only) accounts, otherwise `bcrypt.compare` (the abstract `compare`). -/
def validatePassword (compare : String → String → Bool) (c : Client)
    (pw : String) : Bool :=
  match c.password with
  | none => false
  | some h => compare pw h

/-- `Client.findActiveByEmail`: first record whose stored email equals the
lowercased input and which is active. -/
def findActiveByEmail (store : List Client) (email : String) : Option Client :=
  store.find? (fun c => decide (c.email = jsToLowerCase email) && c.isActive)

/-- Persisting `instance.update(...)`: replace the record with the same id. -/
def updateClient (store : List Client) (c : Client) : List Client :=
  store.map (fun x => if x.id = c.id then c else x)

/-! ## Local login strategy and controller (`passport.js`, `authController.js`) -/

/-- Outcome of the `'local-client'` strategy: `done(null, false, info)` with
the info `message`/`code`, or `done(null, client)`. -/
inductive StrategyResult where
  | failure (message code : String)
  | success (client : Client)
  deriving DecidableEq

/-- One run of the strategy: its outcome, the store it leaves behind, and
whether `validatePassword` (the password hash) was consulted. -/
structure StrategyRun where
  result : StrategyResult
  store : List Client
  passwordChecked : Bool
  deriving DecidableEq

/-- The `'local-client'` strategy from `src/config/passport.js`: look up the
active client by email, check the lock BEFORE the password, then either
reset (success) or increment (failure) the attempt counter. -/
def localClientStrategy (compare : String → String → Bool) (store : List Client)
    (now : Nat) (email pw : String) : StrategyRun :=
  match findActiveByEmail store email with
  | none =>
    { result := .failure "Email no registrado" "EMAIL_NOT_FOUND",
      store := store, passwordChecked := false }
  | some client =>
    if isLocked client now then
      { result := .failure "Cuenta temporalmente bloqueada por múltiples intentos fallidos"
          "ACCOUNT_LOCKED",
        store := store, passwordChecked := false }
    else if validatePassword compare client pw then
      let c := resetLoginAttempts client now
      { result := .success c, store := updateClient store c, passwordChecked := true }
    else
      let c := incrementLoginAttempts client now
      { result := .failure "Contraseña incorrecta" "INVALID_PASSWORD",
        store := updateClient store c, passwordChecked := true }

/-- The HTTP answer of `loginClient` in `src/controllers/authController.js`
(the fields a caller can observe; the success body is abbreviated). -/
structure LoginResponse where
  status : Nat
  error : String
  message : String
  code : String
  deriving DecidableEq

/-- `loginClient`: on strategy failure, a 401 whose `message` and `code`
come straight from the strategy's `info` object (defaults apply only when
`info` is absent, which the local strategy never produces). -/
def loginClientResponse (run : StrategyRun) : LoginResponse :=
  match run.result with
  | .failure msg code =>
    { status := 401, error := "Credenciales inválidas", message := msg, code := code }
  | .success _ =>
    { status := 200, error := "", message := "Login exitoso", code := "" }

/-! ## External identity linker (`src/utils/oauth.js`) -/

/-- A processed OAuth profile (output of `processGoogleProfile` /
`processFacebookProfile`): always carries a usable email. -/
structure OAuthProfile where
  id : String
  provider : String
  email : String
  firstName : String := ""
  lastName : String := ""
  picture : Option String := none
  deriving DecidableEq

/-- The column `Client.findByOAuthId` matches on:
`provider === 'google' ? 'googleId' : 'facebookId'`. -/
def oauthIdField (provider : String) (c : Client) : Option String :=
  if provider = "google" then c.googleId else c.facebookId

/-- `Client.findByOAuthId`. -/
def findByOAuthId (store : List Client) (provider oauthId : String) : Option Client :=
  store.find? (fun c => decide (oauthIdField provider c = some oauthId))

/-- `findOrCreateOAuthClient` from `src/utils/oauth.js`: (1) return the
client already bound to this (provider, external id), refreshing
`lastLogin`; else (2) link the binding onto the active client with this
email; else (3) create a fresh client with the binding.  `freshId` stands
for the UUID the store would generate; the side creation of default
preferences touches a separate table and is omitted. -/
def findOrCreateOAuthClient (store : List Client) (freshId : String) (now : Nat)
    (profile : OAuthProfile) (provider : String) : Client × List Client :=
  match findByOAuthId store provider profile.id with
  | some client =>
    let c := { client with lastLogin := some now }
    (c, updateClient store c)
  | none =>
    match findActiveByEmail store profile.email with
    | some client =>
      let c := { client with
        authProvider := if client.authProvider = "local" then provider else "multiple",
        isEmailVerified := true,
        lastLogin := some now,
        googleId := if provider = "google" then some profile.id else client.googleId,
        facebookId := if provider = "facebook" then some profile.id else client.facebookId }
      (c, updateClient store c)
    | none =>
      let c : Client :=
        { id := freshId, email := jsToLowerCase profile.email,
          firstName := profile.firstName, lastName := profile.lastName,
          authProvider := provider, isEmailVerified := true, lastLogin := some now,
          googleId := if provider = "google" then some profile.id else none,
          facebookId := if provider = "facebook" then some profile.id else none }
      (c, store ++ [c])

/-! ## Permission resolver (`src/middleware/authorize.js`) -/

/-- `DEFAULT_PERMISSIONS[role] || []`. -/
def DEFAULT_PERMISSIONS (role : String) : List String :=
  if role = "super_admin" then
    ["manage_all", "delete_users", "modify_system", "view_analytics",
     "manage_payments", "manage_clients", "manage_products", "manage_promotions"]
  else if role = "admin" then
    ["manage_clients", "manage_products", "manage_payments", "view_analytics",
     "manage_promotions", "create_users"]
  else if role = "staff" then
    ["view_clients", "update_clients", "process_payments", "view_products",
     "update_products"]
  else if role = "client" then
    ["view_own_profile", "update_own_profile", "view_own_payments",
     "make_payments", "use_gym_services"]
  else []

/-- `user.permissions[permission]` on the override map. -/
def lookupPerm (perms : List (String × Bool)) (p : String) : Option Bool :=
  (perms.find? (fun kv => decide (kv.1 = p))).map Prod.snd

/-- The decision of `requirePermission(permission)` for an authenticated
user: super admins pass unconditionally; otherwise an explicit `false`
override denies, then a role-default or explicit `true` override allows. -/
def requirePermissionDecision (role : Option String) (perms : List (String × Bool))
    (permission : String) : Bool :=
  if role = some "super_admin" then true
  else
    let defaultPerms := DEFAULT_PERMISSIONS (jsOrString role "client")
    let specificPerm := lookupPerm perms permission
    if specificPerm = some false then false
    else if permission ∈ defaultPerms ∨ specificPerm = some true then true
    else false

/-- `getUserPermissions`: start from the role defaults, append override keys
explicitly set to `true` that are not already present, then drop every
permission explicitly set to `false`.  (The source additionally sorts the
resulting array; the ordering is presentational and not modelled.) -/
def getUserPermissions (role : Option String) (perms : List (String × Bool)) :
    List String :=
  let defaultPerms := DEFAULT_PERMISSIONS (jsOrString role "client")
  let effectivePerms := perms.foldl
    (fun acc kv => if kv.2 = true ∧ kv.1 ∉ acc then acc ++ [kv.1] else acc)
    defaultPerms
  effectivePerms.filter (fun p => decide (lookupPerm perms p ≠ some false))

/-- Modelled from the spec: the effective-permission formula
"(role default set) ∪ (overrides explicitly set to allow) − (overrides
explicitly set to deny)", written independently of the source to compare
against `getUserPermissions`. -/
def specEffectivePermission (role : Option String) (perms : List (String × Bool))
    (p : String) : Prop :=
  (p ∈ DEFAULT_PERMISSIONS (jsOrString role "client") ∨ lookupPerm perms p = some true)
  ∧ lookupPerm perms p ≠ some false

/-! ## Helper lemmas -/

/-- A token whose `exp` has not passed at `now` survives one purge step. -/
theorem cleanupKeeps_of_le (t : Token) (now : Nat)
    (h : ∀ info e, getTokenInfo t = some info → info.expiresAt = some e → now ≤ e) :
    cleanupKeeps now t = true := by
  unfold cleanupKeeps
  cases hinfo : getTokenInfo t with
  | none => rfl
  | some info =>
    cases hexp : info.expiresAt with
    | none => simp [hexp]
    | some e =>
      have := h info e hinfo hexp
      simp [hexp, Nat.not_lt.mpr this]

/-- Memership in the blacklist is preserved by a purge step that keeps `t`. -/
theorem mem_cleanupRevokedTokens (t : Token) (now : Nat) (s : List Token)
    (hmem : t ∈ s) (hkeep : cleanupKeeps now t = true) :
    t ∈ cleanupRevokedTokens now s :=
  List.mem_filter.mpr ⟨hmem, hkeep⟩

/-- Membership is preserved by any sequence of purge steps that keep `t`. -/
theorem mem_foldl_cleanup (t : Token) (times : List Nat) (s : List Token)
    (hmem : t ∈ s) (hkeep : ∀ n ∈ times, cleanupKeeps n t = true) :
    t ∈ times.foldl (fun acc n => cleanupRevokedTokens n acc) s := by
  induction times generalizing s with
  | nil => exact hmem
  | cons n rest ih =>
    simp only [List.foldl_cons]
    exact ih (cleanupRevokedTokens n s)
      (mem_cleanupRevokedTokens t n s hmem (hkeep n (List.mem_cons_self n rest)))
      (fun m hm => hkeep m (List.mem_cons_of_mem n hm))

/-! ## C4 -/

/-- C4: after `revoke(id)`, `isRevoked(id)` is true immediately; purging
never removes an entry whose expiry has not passed; and across any sequence
of purges invoked before the entry's natural expiry the credential stays
revoked. -/
theorem c4_revocation_stable (t : Token) (revoked : List Token) (times : List Nat)
    (h : ∀ n ∈ times, ∀ info e,
      getTokenInfo t = some info → info.expiresAt = some e → n ≤ e) :
    isRevoked (revokeToken t revoked) t = true
    ∧ (∀ now s u, u ∈ s →
        (∀ info e, getTokenInfo u = some info → info.expiresAt = some e → now ≤ e) →
        u ∈ cleanupRevokedTokens now s)
    ∧ isRevoked
        (times.foldl (fun acc n => cleanupRevokedTokens n acc) (revokeToken t revoked))
        t = true := by
  have hself : t ∈ revokeToken t revoked := by
    unfold revokeToken
    by_cases hm : t ∈ revoked
    · simp [hm]
    · simp [hm]
  refine ⟨by simpa [isRevoked] using hself,
    fun now s u hu hle => mem_cleanupRevokedTokens u now s hu (cleanupKeeps_of_le u now hle),
    ?_⟩
  have := mem_foldl_cleanup t times (revokeToken t revoked) hself
    (fun n hn => cleanupKeeps_of_le t n (h n hn))
  simpa [isRevoked] using this

/-- C4 witness: a concrete revoked token with `exp = 1000` survives purges
at times 10, 500 and 1000 and stays revoked. -/
theorem c4_witness :
    (∀ n ∈ [10, 500, 1000], ∀ info e,
      getTokenInfo (Token.signed { exp := some 1000 } "s") = some info →
      info.expiresAt = some e → n ≤ e)
    ∧ isRevoked
        ([10, 500, 1000].foldl (fun acc n => cleanupRevokedTokens n acc)
          (revokeToken (Token.signed { exp := some 1000 } "s") []))
        (Token.signed { exp := some 1000 } "s") = true := by
  have h : ∀ n ∈ [10, 500, 1000], ∀ info e,
      getTokenInfo (Token.signed { exp := some 1000 } "s") = some info →
      info.expiresAt = some e → n ≤ e := by
    intro n hn info e h1 h2
    simp only [getTokenInfo, decodeTokenWithoutVerification, Option.some.injEq] at h1
    subst h1
    simp only [Option.some.injEq] at h2
    subst h2
    simp only [List.mem_cons, List.not_mem_nil, or_false] at hn
    rcases hn with rfl | rfl | rfl <;> omega
  exact ⟨h, (c4_revocation_stable (Token.signed { exp := some 1000 } "s") [] [10, 500, 1000] h).2.2⟩

/-! ## C10 -/

/-- C10: an input that cannot be decoded as a credential is always reported
as expiring soon, for every threshold. -/
theorem c10_undecodable_is_expiring (t : Token) (now threshold : Nat)
    (h : decodeTokenWithoutVerification t = none) :
    isTokenExpiringSoon t now threshold = true := by
  simp [isTokenExpiringSoon, getTokenInfo, h]

/-- C10 witness: a garbage string is reported expiring soon at threshold 0. -/
theorem c10_witness :
    decodeTokenWithoutVerification (Token.malformed "xx") = none
    ∧ isTokenExpiringSoon (Token.malformed "xx") 5 0 = true :=
  ⟨rfl, c10_undecodable_is_expiring (Token.malformed "xx") 5 0 rfl⟩

/-! ## C1 -/

/-- A well-signed, unexpired payload with the configured issuer and
audience, used to exercise the JWT strategy. -/
def demoPayload : TokenPayload :=
  { id := some "c1", email := some "a@x.com", type := some "client",
    permissions := some [], iat := 0, exp := some 1000000, sub := some "c1",
    jti := some "j1", iss := some JWT_CONFIG.issuer, aud := JWT_CONFIG.audience }

def demoToken : Token := Token.signed demoPayload JWT_CONFIG.secret

def demoPrincipal : Principal := { id := "c1", email := "a@x.com", isActive := true }

/-- C1 counterexample: a credential that sits in the revocation registry is
nevertheless accepted by the passport JWT strategy, so the claim that every
verify-success path consults the registry is false on the code. -/
theorem c1_counterexample :
    isRevoked [demoToken] demoToken = true
    ∧ jwtStrategyAuth [] [demoPrincipal] 5 demoToken = some demoPrincipal := by
  constructor
  · decide
  · decide

/-- C1 (amended): the `verifyToken` utility consults the revocation registry
on every success path — it never returns `ok` for a revoked credential — but
the passport JWT strategy does not, so only the `verifyToken` paths enjoy
the invariant. -/
theorem c1_verifyToken_checks_revocation (revoked : List Token) (now : Nat)
    (t : Token) (d : TokenPayload)
    (h : verifyToken revoked now t = .ok d) : isRevoked revoked t = false := by
  unfold verifyToken at h
  by_cases hm : t ∈ revoked
  · simp [hm] at h
  · simp [isRevoked, hm]

/-- C1 witness: `verifyToken` succeeds on the demo token against the empty
registry, and the theorem yields that the token is not revoked there. -/
theorem c1_witness :
    verifyToken [] 5 demoToken = .ok demoPayload
    ∧ isRevoked [] demoToken = false :=
  ⟨by rfl, c1_verifyToken_checks_revocation [] 5 demoToken demoPayload (by rfl)⟩

/-! ## C2 -/

/-- An abstract stand-in for `bcrypt.compare` used in the concrete C2 runs:
the stored "hash" is the password itself. -/
def demoCompare : String → String → Bool := fun pw h => pw == h

/-- A stored active client with a password hash. -/
def demoClient : Client :=
  { id := "c1", email := "a@x.com", password := some "correct-horse" }

/-- C2 counterexample: the login response for an unknown email differs from
the response for a known email with a wrong password (`EMAIL_NOT_FOUND` vs
`INVALID_PASSWORD`), so the two runs are distinguishable. -/
theorem c2_counterexample :
    loginClientResponse (localClientStrategy demoCompare [demoClient] 0 "b@x.com" "pw")
    ≠ loginClientResponse (localClientStrategy demoCompare [demoClient] 0 "a@x.com" "wrong") := by
  decide

/-- C2 (amended): every failed password login is answered with status 401
and the same top-level error string, but the `message` and `code` fields
leak whether the email exists: an unknown email yields `EMAIL_NOT_FOUND`
while a wrong password yields `INVALID_PASSWORD`, so the two responses are
distinguishable. -/
theorem c2_failure_responses (compare : String → String → Bool)
    (storeA storeB : List Client) (nowA nowB : Nat) (eA pA eB pB : String)
    (c : Client)
    (hA : findActiveByEmail storeA eA = none)
    (hB : findActiveByEmail storeB eB = some c)
    (hlock : isLocked c nowB = false)
    (hpw : validatePassword compare c pB = false) :
    (loginClientResponse (localClientStrategy compare storeA nowA eA pA)).status = 401
    ∧ (loginClientResponse (localClientStrategy compare storeB nowB eB pB)).status = 401
    ∧ (loginClientResponse (localClientStrategy compare storeA nowA eA pA)).error
      = (loginClientResponse (localClientStrategy compare storeB nowB eB pB)).error
    ∧ (loginClientResponse (localClientStrategy compare storeA nowA eA pA)).code
      = "EMAIL_NOT_FOUND"
    ∧ (loginClientResponse (localClientStrategy compare storeB nowB eB pB)).code
      = "INVALID_PASSWORD"
    ∧ loginClientResponse (localClientStrategy compare storeA nowA eA pA)
      ≠ loginClientResponse (localClientStrategy compare storeB nowB eB pB) := by
  have hA2 : localClientStrategy compare storeA nowA eA pA =
      { result := .failure "Email no registrado" "EMAIL_NOT_FOUND",
        store := storeA, passwordChecked := false } := by
    simp [localClientStrategy, hA]
  have hB2 : localClientStrategy compare storeB nowB eB pB =
      { result := .failure "Contraseña incorrecta" "INVALID_PASSWORD",
        store := updateClient storeB (incrementLoginAttempts c nowB),
        passwordChecked := true } := by
    simp [localClientStrategy, hB, hlock, hpw]
  rw [hA2, hB2]
  refine ⟨rfl, rfl, rfl, rfl, rfl, ?_⟩
  intro hcontra
  have h2 := congrArg LoginResponse.code hcontra
  simp [loginClientResponse] at h2

/-- C2 witness: the amended statement at the concrete runs of the
counterexample. -/
theorem c2_witness :
    (loginClientResponse (localClientStrategy demoCompare [demoClient] 0 "b@x.com" "pw")).code
      = "EMAIL_NOT_FOUND"
    ∧ (loginClientResponse (localClientStrategy demoCompare [demoClient] 0 "a@x.com" "wrong")).code
      = "INVALID_PASSWORD" := by
  have h := c2_failure_responses demoCompare [demoClient] [demoClient] 0 0
    "b@x.com" "pw" "a@x.com" "wrong" demoClient
    (by decide) (by decide) (by decide) (by decide)
  exact ⟨h.2.2.2.1, h.2.2.2.2.1⟩

/-! ## C3 -/

/-- C3: in the password-login flow, a fifth consecutive failure (counter at
4, account not locked, wrong password) stores a client whose counter is 5 —
not reset by the lock — and whose `lockedUntil` is `now + 30min`; and while
`lockedUntil` lies in the future, any attempt answers `ACCOUNT_LOCKED`
without the password hash being consulted. -/
theorem c3_lockout (compare : String → String → Bool) (store : List Client)
    (now : Nat) (email pw : String) (c : Client)
    (hfind : findActiveByEmail store email = some c) :
    (isLocked c now = false → validatePassword compare c pw = false →
      c.loginAttempts = 4 →
      (localClientStrategy compare store now email pw).store
        = updateClient store (incrementLoginAttempts c now)
      ∧ (incrementLoginAttempts c now).loginAttempts = 5
      ∧ (incrementLoginAttempts c now).lockedUntil = some (now + 30 * 60 * 1000))
    ∧ (isLocked c now = true →
      (localClientStrategy compare store now email pw).result
        = .failure "Cuenta temporalmente bloqueada por múltiples intentos fallidos"
            "ACCOUNT_LOCKED"
      ∧ (localClientStrategy compare store now email pw).passwordChecked = false) := by
  constructor
  · intro hlock hpw hcount
    refine ⟨?_, ?_, ?_⟩
    · simp [localClientStrategy, hfind, hlock, hpw]
    · simp [incrementLoginAttempts, hcount]
    · simp [incrementLoginAttempts, hcount]
  · intro hlock
    constructor
    · simp [localClientStrategy, hfind, hlock]
    · simp [localClientStrategy, hfind, hlock]

/-- C3 witness: a stored client with 4 failed attempts gets locked for 30
minutes by the next failure. -/
theorem c3_witness :
    (incrementLoginAttempts
      { id := "c1", email := "a@x.com", password := some "h",
        loginAttempts := 4 : Client } 7).loginAttempts = 5
    ∧ (incrementLoginAttempts
      { id := "c1", email := "a@x.com", password := some "h",
        loginAttempts := 4 : Client } 7).lockedUntil = some (7 + 30 * 60 * 1000) := by
  have h := c3_lockout demoCompare
    [{ id := "c1", email := "a@x.com", password := some "h", loginAttempts := 4 }]
    7 "a@x.com" "wrong"
    { id := "c1", email := "a@x.com", password := some "h", loginAttempts := 4 }
    (by decide)
  have h2 := h.1 (by decide) (by decide) (by decide)
  exact ⟨h2.2.1, h2.2.2⟩

/-! ## C9 -/

/-- C9: once the counter is at or above the threshold 5 and the lock has
expired, a single further failed password attempt immediately installs a
fresh lock `now + 30min` (re-locking is not limited to exactly the fifth
failure). -/
theorem c9_relock_after_expiry (compare : String → String → Bool)
    (store : List Client) (now : Nat) (email pw : String) (c : Client)
    (hfind : findActiveByEmail store email = some c)
    (hlock : isLocked c now = false)
    (hcount : 5 ≤ c.loginAttempts)
    (hpw : validatePassword compare c pw = false) :
    (localClientStrategy compare store now email pw).store
      = updateClient store (incrementLoginAttempts c now)
    ∧ (incrementLoginAttempts c now).lockedUntil = some (now + 30 * 60 * 1000)
    ∧ (incrementLoginAttempts c now).loginAttempts = c.loginAttempts + 1 := by
  refine ⟨?_, ?_, ?_⟩
  · simp [localClientStrategy, hfind, hlock, hpw]
  · simp [incrementLoginAttempts, Nat.le_succ_of_le hcount]
  · simp [incrementLoginAttempts, Nat.le_succ_of_le hcount]

/-- C9 witness: a client with 6 failed attempts and an expired lock is
freshly re-locked by the next failure. -/
theorem c9_witness :
    (incrementLoginAttempts
      { id := "c1", email := "a@x.com", password := some "h",
        loginAttempts := 6, lockedUntil := some 3 : Client } 9).lockedUntil
      = some (9 + 30 * 60 * 1000) :=
  (c9_relock_after_expiry demoCompare
    [{ id := "c1", email := "a@x.com", password := some "h",
       loginAttempts := 6, lockedUntil := some 3 }]
    9 "a@x.com" "wrong"
    { id := "c1", email := "a@x.com", password := some "h",
      loginAttempts := 6, lockedUntil := some 3 }
    (by decide) (by decide) (by decide) (by decide)).2.1

/-! ## C6 -/

/-- C6: issuing an access credential for a valid principal (kind `client` or
`user`, role absent or a non-empty string) and verifying it — before expiry
and while it is not revoked — recovers the same principal id, kind and role. -/
theorem c6_issue_verify_roundtrip (p : AccessPayloadInput) (now nowV : Nat)
    (jti : String) (revoked : List Token)
    (htype : p.type = some "client" ∨ p.type = some "user")
    (hrole : p.role ≠ some "")
    (hfresh : generateAccessToken p now jti ∉ revoked)
    (hclock : nowV ≤ now + JWT_CONFIG.accessTokenExpiry) :
    ∃ d, verifyToken revoked nowV (generateAccessToken p now jti) = .ok d
      ∧ d.id = some p.id ∧ d.type = p.type ∧ d.role = p.role := by
  refine ⟨{ id := some p.id, email := some p.email,
            type := some (jsOrString p.type "client"), role := jsOrNull p.role,
            permissions := some (p.permissions.getD []), iat := now,
            exp := some (now + JWT_CONFIG.accessTokenExpiry), sub := some p.id,
            jti := some jti, iss := some JWT_CONFIG.issuer,
            aud := JWT_CONFIG.audience }, ?_, rfl, ?_, ?_⟩
  · unfold verifyToken
    rw [if_neg hfresh]
    have hclock2 : nowV ≤ now + 86400 := by simpa [JWT_CONFIG] using hclock
    simp [jwtLibVerify, generateAccessToken, audienceMatches, JWT_CONFIG,
      jsExpired, Nat.not_lt.mpr hclock2]
  · rcases htype with h | h <;> simp [h, jsOrString]
  · rcases hr : p.role with _ | r
    · simp [jsOrNull, hr]
    · have : r ≠ "" := by intro hc; exact hrole (by rw [hr, hc])
      simp [jsOrNull, hr, this]

/-- C6 witness: the round trip at a concrete admin principal. -/
theorem c6_witness :
    ∃ d, verifyToken [] 12
        (generateAccessToken
          { id := "u1", email := "b@x.com", type := some "user",
            role := some "admin" } 3 "j2") = .ok d
      ∧ d.id = some "u1" ∧ d.type = some "user" ∧ d.role = some "admin" :=
  c6_issue_verify_roundtrip
    { id := "u1", email := "b@x.com", type := some "user", role := some "admin" }
    3 12 "j2" [] (Or.inr rfl) (by decide) (by decide) (by decide)

/-! ## C7 -/

/-- C7: a refresh call fails unless the presented credential verifies and
carries `tokenType = 'refresh'`; on success the principal is re-fetched from
the store named by `userType` and the call fails when it is missing or
inactive; otherwise exactly one new access credential is issued for the
re-fetched principal and the revocation registry — hence the refresh
credential itself — is left untouched (no rotation, no revocation). -/
theorem c7_refresh_flow (users clients : List Principal) (revoked : List Token)
    (now : Nat) (jti : String) (t : Token) :
    (refreshAccessToken users clients revoked now jti t).2 = revoked
    ∧ (∀ tok, (refreshAccessToken users clients revoked now jti t).1 = .ok tok →
        ∃ d, verifyToken revoked now t = .ok d ∧ d.tokenType = some "refresh"
          ∧ ∃ u, (if d.userType = some "user" then findByPk users d.userId
                  else findByPk clients d.userId) = some u
              ∧ u.isActive = true
              ∧ tok = generateAccessToken
                  { id := u.id, email := u.email, type := d.userType,
                    role := u.role, permissions := u.permissions } now jti)
    ∧ (∀ e, verifyToken revoked now t = .error e →
        (refreshAccessToken users clients revoked now jti t).1 = .error .failed)
    ∧ (∀ d, verifyToken revoked now t = .ok d →
        (d.tokenType ≠ some "refresh"
          ∨ (∀ u, (if d.userType = some "user" then findByPk users d.userId
                   else findByPk clients d.userId) = some u → u.isActive = false)) →
        (refreshAccessToken users clients revoked now jti t).1 = .error .failed) := by
  cases hv : verifyToken revoked now t with
  | error e =>
    have hres : refreshAccessToken users clients revoked now jti t
        = (.error .failed, revoked) := by
      simp [refreshAccessToken, hv]
    refine ⟨by rw [hres], ?_, ?_, ?_⟩
    · intro tok htok; rw [hres] at htok; simp at htok
    · intro e2 _; rw [hres]
    · intro d2 hd2 _; simp at hd2
  | ok d =>
    by_cases hrt : d.tokenType = some "refresh"
    · cases hu : (if d.userType = some "user" then findByPk users d.userId
                  else findByPk clients d.userId) with
      | none =>
        have hres : refreshAccessToken users clients revoked now jti t
            = (.error .failed, revoked) := by
          simp [refreshAccessToken, hv, hrt, hu]
        refine ⟨by rw [hres], ?_, ?_, ?_⟩
        · intro tok htok; rw [hres] at htok; simp at htok
        · intro e2 he2; simp at he2
        · intro d2 hd2 _
          rw [hres]
      | some u =>
        by_cases hact : u.isActive
        · have hres : refreshAccessToken users clients revoked now jti t
              = (.ok (generateAccessToken
                  { id := u.id, email := u.email, type := d.userType,
                    role := u.role, permissions := u.permissions } now jti),
                 revoked) := by
            simp [refreshAccessToken, hv, hrt, hu, hact]
          refine ⟨by rw [hres], ?_, ?_, ?_⟩
          · intro tok htok
            rw [hres] at htok
            simp only [Except.ok.injEq] at htok
            exact ⟨d, rfl, hrt, u, hu, hact, htok.symm⟩
          · intro e2 he2; simp at he2
          · intro d2 hd2 hbad
            simp only [Except.ok.injEq] at hd2
            subst hd2
            rcases hbad with hbad | hbad
            · exact absurd hrt hbad
            · have := hbad u hu
              rw [hact] at this
              cases this
        · have hres : refreshAccessToken users clients revoked now jti t
              = (.error .failed, revoked) := by
            simp [refreshAccessToken, hv, hrt, hu, hact]
          refine ⟨by rw [hres], ?_, ?_, ?_⟩
          · intro tok htok; rw [hres] at htok; simp at htok
          · intro e2 he2; simp at he2
          · intro d2 hd2 _
            rw [hres]
    · have hres : refreshAccessToken users clients revoked now jti t
          = (.error .failed, revoked) := by
        simp [refreshAccessToken, hv, hrt]
      refine ⟨by rw [hres], ?_, ?_, ?_⟩
      · intro tok htok; rw [hres] at htok; simp at htok
      · intro e2 he2; simp at he2
      · intro d2 hd2 _
        rw [hres]

/-- C7 witness: at a concrete refresh token for an active stored client, the
refresh call leaves the registry unchanged and the success branch of the
theorem characterizes the issued access token. -/
theorem c7_witness :
    (refreshAccessToken [] [demoPrincipal] [] 5 "j3"
      (generateRefreshToken "c1" "client" 0 "j1")).2 = ([] : List Token) :=
  (c7_refresh_flow [] [demoPrincipal] [] 5 "j3"
    (generateRefreshToken "c1" "client" 0 "j1")).1

/-! ## C5 -/

/-- Membership in the grant-accumulating fold of `getUserPermissions`:
a name is collected exactly when it is a role default or an override
explicitly set to `true`. -/
theorem mem_grantFold (l : List (String × Bool)) (acc : List String) (p : String) :
    p ∈ l.foldl
      (fun acc kv => if kv.2 = true ∧ kv.1 ∉ acc then acc ++ [kv.1] else acc) acc
    ↔ p ∈ acc ∨ (p, true) ∈ l := by
  induction l generalizing acc with
  | nil => simp
  | cons kv rest ih =>
    simp only [List.foldl_cons, ih, List.mem_cons]
    by_cases hv : kv.2 = true ∧ kv.1 ∉ acc
    · rw [if_pos hv]
      simp only [List.mem_append, List.mem_singleton]
      constructor
      · rintro ((h | h) | h)
        · exact Or.inl h
        · subst h
          exact Or.inr (Or.inl (by simp [Prod.ext_iff, hv.1]))
        · exact Or.inr (Or.inr h)
      · rintro (h | (h | h))
        · exact Or.inl (Or.inl h)
        · exact Or.inl (Or.inr (congrArg Prod.fst h))
        · exact Or.inr h
    · rw [if_neg hv]
      push_neg at hv
      constructor
      · rintro (h | h)
        · exact Or.inl h
        · exact Or.inr (Or.inr h)
      · rintro (h | (h | h))
        · exact Or.inl h
        · have h1 : kv.1 = p := (congrArg Prod.fst h).symm ▸ rfl
          have h2 : kv.2 = true := by
            have := congrArg Prod.snd h
            simpa using this.symm
          rw [← h1]
          exact Or.inl (hv h2)
        · exact Or.inr h

/-- With duplicate-free override keys, the override map lookup agrees with
list membership. -/
theorem lookupPerm_eq_some_iff (l : List (String × Bool)) (p : String) (b : Bool)
    (h : (l.map Prod.fst).Nodup) :
    lookupPerm l p = some b ↔ (p, b) ∈ l := by
  induction l with
  | nil => simp [lookupPerm]
  | cons kv rest ih =>
    simp only [List.map_cons, List.nodup_cons] at h
    obtain ⟨hk, hrest⟩ := h
    by_cases hp : kv.1 = p
    · have hfind : lookupPerm (kv :: rest) p = some kv.2 := by
        simp [lookupPerm, List.find?_cons, hp]
      rw [hfind]
      simp only [List.mem_cons, Option.some.injEq]
      constructor
      · intro hb
        exact Or.inl (by rw [← hp, ← hb])
      · rintro (hb | hb)
        · exact (congrArg Prod.snd hb).symm
        · exact absurd (hp ▸ List.mem_map_of_mem Prod.fst hb) hk
    · have hfind : lookupPerm (kv :: rest) p = lookupPerm rest p := by
        simp [lookupPerm, List.find?_cons, hp]
      rw [hfind, ih hrest]
      simp only [List.mem_cons]
      constructor
      · exact Or.inr
      · rintro (hb | hb)
        · exact absurd (congrArg Prod.fst hb).symm hp
        · exact hb

/-- C5: with duplicate-free override keys, membership in
`getUserPermissions` coincides with the spec formula
(role defaults ∪ explicit allows − explicit denies), and
`requirePermission` grants exactly the super-admin role or a member of that
effective set — so a super admin passes every permission check regardless of
overrides. -/
theorem c5_effective_permissions (role : Option String)
    (perms : List (String × Bool)) (p : String)
    (hkeys : (perms.map Prod.fst).Nodup) :
    (p ∈ getUserPermissions role perms ↔ specEffectivePermission role perms p)
    ∧ (requirePermissionDecision role perms p = true
        ↔ (role = some "super_admin" ∨ p ∈ getUserPermissions role perms)) := by
  have hmem : p ∈ getUserPermissions role perms ↔ specEffectivePermission role perms p := by
    unfold getUserPermissions specEffectivePermission
    rw [List.mem_filter, mem_grantFold]
    constructor
    · rintro ⟨hin, hfilter⟩
      refine ⟨?_, by simpa using hfilter⟩
      rcases hin with h | h
      · exact Or.inl h
      · exact Or.inr ((lookupPerm_eq_some_iff perms p true hkeys).mpr h)
    · rintro ⟨hin, hden⟩
      refine ⟨?_, by simpa using hden⟩
      rcases hin with h | h
      · exact Or.inl h
      · exact Or.inr ((lookupPerm_eq_some_iff perms p true hkeys).mp h)
  refine ⟨hmem, ?_⟩
  by_cases hsa : role = some "super_admin"
  · simp [requirePermissionDecision, hsa]
  · unfold requirePermissionDecision
    rw [if_neg hsa]
    by_cases hden : lookupPerm perms p = some false
    · rw [if_pos hden]
      simp only [Bool.false_eq_true, false_iff]
      rintro (h | h)
      · exact hsa h
      · exact absurd (hmem.mp h).2 (by simp [hden])
    · rw [if_neg hden]
      by_cases hal : p ∈ DEFAULT_PERMISSIONS (jsOrString role "client")
          ∨ lookupPerm perms p = some true
      · rw [if_pos hal]
        simp only [true_iff]
        exact Or.inr (hmem.mpr ⟨hal, hden⟩)
      · rw [if_neg hal]
        simp only [Bool.false_eq_true, false_iff]
        rintro (h | h)
        · exact hsa h
        · exact hal (hmem.mp h).1

/-- C5 witness: a staff principal with override `manage_clients: true` has
`manage_clients` effective, and a super admin with override
`manage_all: false` still passes the `manage_all` permission check. -/
theorem c5_witness :
    requirePermissionDecision (some "staff") [("manage_clients", true)]
      "manage_clients" = true
    ∧ requirePermissionDecision (some "super_admin") [("manage_all", false)]
      "manage_all" = true := by
  constructor
  · exact (c5_effective_permissions (some "staff") [("manage_clients", true)]
      "manage_clients" (by decide)).2.mpr (Or.inr (by decide))
  · exact (c5_effective_permissions (some "super_admin") [("manage_all", false)]
      "manage_all" (by decide)).2.mpr (Or.inl rfl)

/-! ## C8 -/

/-- Updating the record that `find?` locates (by its id) keeps it the first
match, provided stored ids are distinct and the update still matches. -/
theorem find?_updateClient_self (q : Client → Bool) (c c2 : Client)
    (hid : c2.id = c.id) (hq : q c2 = true) :
    ∀ s : List Client, s.find? q = some c → (s.map Client.id).Nodup →
      (updateClient s c2).find? q = some c2 := by
  intro s
  induction s with
  | nil => intro hfind _; simp at hfind
  | cons x rest ih =>
    intro hfind hnodup
    simp only [List.map_cons, List.nodup_cons] at hnodup
    obtain ⟨hx, hrest⟩ := hnodup
    by_cases hqx : q x = true
    · rw [List.find?_cons_of_pos _ hqx] at hfind
      simp only [Option.some.injEq] at hfind
      have hhead : (if x.id = c2.id then c2 else x) = c2 := by
        rw [if_pos (by rw [hid, ← hfind])]
      simp only [updateClient, List.map_cons, hhead]
      exact List.find?_cons_of_pos _ hq
    · rw [List.find?_cons_of_neg _ hqx] at hfind
      have hcmem : c ∈ rest := List.mem_of_find?_eq_some hfind
      have hxid : ¬ x.id = c2.id := by
        rw [hid]
        intro hcontra
        exact hx (hcontra ▸ List.mem_map_of_mem Client.id hcmem)
      simp only [updateClient, List.map_cons, if_neg hxid]
      rw [List.find?_cons_of_neg _ hqx]
      exact ih hfind hrest

/-- When no record matches `q` but `find?` locates `c` by another predicate,
replacing `c` (by id) with a record that matches `q` makes that record the
first `q`-match of the updated store. -/
theorem find?_updateClient_link (q r : Client → Bool) (c c2 : Client)
    (hid : c2.id = c.id) (hq : q c2 = true) :
    ∀ s : List Client, s.find? q = none → s.find? r = some c →
      (s.map Client.id).Nodup →
      (updateClient s c2).find? q = some c2 := by
  intro s
  induction s with
  | nil => intro _ hr _; simp at hr
  | cons x rest ih =>
    intro hqnone hr hnodup
    simp only [List.map_cons, List.nodup_cons] at hnodup
    obtain ⟨hx, hrest⟩ := hnodup
    have hqx : ¬ q x = true := by
      intro hqx
      rw [List.find?_cons_of_pos _ hqx] at hqnone
      cases hqnone
    have hqrest : rest.find? q = none := by
      rwa [List.find?_cons_of_neg _ hqx] at hqnone
    by_cases hrx : r x = true
    · rw [List.find?_cons_of_pos _ hrx] at hr
      simp only [Option.some.injEq] at hr
      have hhead : (if x.id = c2.id then c2 else x) = c2 := by
        rw [if_pos (by rw [hid, ← hr])]
      simp only [updateClient, List.map_cons, hhead]
      exact List.find?_cons_of_pos _ hq
    · rw [List.find?_cons_of_neg _ hrx] at hr
      have hcmem : c ∈ rest := List.mem_of_find?_eq_some hr
      have hxid : ¬ x.id = c2.id := by
        rw [hid]
        intro hcontra
        exact hx (hcontra ▸ List.mem_map_of_mem Client.id hcmem)
      simp only [updateClient, List.map_cons, if_neg hxid]
      rw [List.find?_cons_of_neg _ hqx]
      exact ih hqrest hr hrest

/-- Appending a matching record to a store with no match makes it the first
match. -/
theorem find?_append_last (q : Client → Bool) (c : Client) (hq : q c = true) :
    ∀ s : List Client, s.find? q = none → (s ++ [c]).find? q = some c := by
  intro s
  induction s with
  | nil => intro _; exact List.find?_cons_of_pos _ hq
  | cons x rest ih =>
    intro hnone
    have hqx : ¬ q x = true := by
      intro hqx
      rw [List.find?_cons_of_pos _ hqx] at hnone
      cases hnone
    rw [List.cons_append, List.find?_cons_of_neg _ hqx]
    refine ih ?_
    rwa [List.find?_cons_of_neg _ hqx] at hnone

/-- A call of the linker on a store that already holds the (provider,
external-id) binding takes the first branch: it returns that client
(`lastLogin` refreshed), the same id, and creates nothing. -/
theorem resolve_finds_binding (store1 : List Client) (c1 : Client) (f2 : String)
    (n2 : Nat) (profile : OAuthProfile) (provider : String)
    (hfound : findByOAuthId store1 provider profile.id = some c1) :
    (findOrCreateOAuthClient store1 f2 n2 profile provider).1.id = c1.id
    ∧ (findOrCreateOAuthClient store1 f2 n2 profile provider).2.length
      = store1.length := by
  simp [findOrCreateOAuthClient, hfound, updateClient]

/-- C8: resolving the same (provider, external profile) twice returns the
same principal id both times and the second call never creates a second
principal (the store size is unchanged), because whatever the first call did
— return, link, or create — the second call finds the principal by its
external-identity binding. -/
theorem c8_resolve_idempotent (store : List Client) (f1 f2 : String) (n1 n2 : Nat)
    (profile : OAuthProfile) (provider : String)
    (hprov : provider = "google" ∨ provider = "facebook")
    (hids : (store.map Client.id).Nodup) :
    ((findOrCreateOAuthClient (findOrCreateOAuthClient store f1 n1 profile provider).2
        f2 n2 profile provider).1).id
      = ((findOrCreateOAuthClient store f1 n1 profile provider).1).id
    ∧ ((findOrCreateOAuthClient (findOrCreateOAuthClient store f1 n1 profile provider).2
        f2 n2 profile provider).2).length
      = ((findOrCreateOAuthClient store f1 n1 profile provider).2).length := by
  have key : findByOAuthId (findOrCreateOAuthClient store f1 n1 profile provider).2
      provider profile.id
      = some (findOrCreateOAuthClient store f1 n1 profile provider).1 := by
    cases h1 : findOrCreateOAuthClient store f1 n1 profile provider with
    | mk c1 store1 =>
      revert h1
      unfold findOrCreateOAuthClient
      cases hfind1 : findByOAuthId store provider profile.id with
      | some client =>
        intro h1
        simp only [Prod.mk.injEq] at h1
        obtain ⟨hc1, hs1⟩ := h1
        subst hc1; subst hs1
        have hq2 : (fun c => decide (oauthIdField provider c = some profile.id))
            ({ client with lastLogin := some n1 } : Client) = true := by
          have := List.find?_some hfind1
          simpa [oauthIdField] using this
        exact find?_updateClient_self _ client { client with lastLogin := some n1 }
          rfl hq2 store hfind1 hids
      | none =>
        cases hfind2 : findActiveByEmail store profile.email with
        | some client =>
          intro h1
          simp only [Prod.mk.injEq] at h1
          obtain ⟨hc1, hs1⟩ := h1
          subst hc1; subst hs1
          refine find?_updateClient_link _
            (fun c => decide (c.email = jsToLowerCase profile.email) && c.isActive)
            client
            { client with
              authProvider := if client.authProvider = "local" then provider else "multiple",
              isEmailVerified := true,
              lastLogin := some n1,
              googleId := if provider = "google" then some profile.id else client.googleId,
              facebookId := if provider = "facebook" then some profile.id else client.facebookId }
            rfl ?_ store hfind1 hfind2 hids
          rcases hprov with hp | hp <;> subst hp <;> simp [oauthIdField]
        | none =>
          intro h1
          simp only [Prod.mk.injEq] at h1
          obtain ⟨hc1, hs1⟩ := h1
          subst hc1; subst hs1
          refine find?_append_last _
            { id := f1, email := jsToLowerCase profile.email,
              firstName := profile.firstName, lastName := profile.lastName,
              authProvider := provider, isEmailVerified := true, lastLogin := some n1,
              googleId := if provider = "google" then some profile.id else none,
              facebookId := if provider = "facebook" then some profile.id else none }
            ?_ store hfind1
          rcases hprov with hp | hp <;> subst hp <;> simp [oauthIdField]
  exact resolve_finds_binding _ _ f2 n2 profile provider key

/-- C8 witness: a fresh Google profile is created on the first call and
found (same id, no growth) on the second. -/
theorem c8_witness :
    ((findOrCreateOAuthClient
        (findOrCreateOAuthClient [] "id-1" 1
          { id := "g1", provider := "google", email := "A@x.com" } "google").2
        "id-2" 2 { id := "g1", provider := "google", email := "A@x.com" } "google").1).id
      = ((findOrCreateOAuthClient [] "id-1" 1
          { id := "g1", provider := "google", email := "A@x.com" } "google").1).id :=
  (c8_resolve_idempotent [] "id-1" "id-2" 1 2
    { id := "g1", provider := "google", email := "A@x.com" } "google"
    (Or.inl rfl) (by decide)).1

end EliteFitness
